import Mathlib

/-!
Shallow embedding of `agent.py` (AgentKVM): the command-safety validator,
the response parser, the action executor, the action-history ledger and the
main iteration loop, together with theorems checking the specification's
claims about them.

Strings are modelled as `List Char` (Python `str`, ASCII fragment).
-/

namespace AgentKVM

/-- ASCII uppercasing of one character; models Python `str.upper` on the
ASCII fragment relevant to the goal marker. -/
def pyUpper (c : Char) : Char :=
  if 'a' ≤ c ∧ c ≤ 'z' then Char.ofNat (c.toNat - 32) else c

/-- Python whitespace (`str.strip`, regex `\s`): space, tab, newline,
carriage return, vertical tab, form feed. -/
def isPySpace (c : Char) : Bool :=
  c == ' ' || c == '\t' || c == '\n' || c == '\r' || c == '\x0b' || c == '\x0c'

/-- Python `str.strip()`: drop leading and trailing whitespace. -/
def pyStrip (l : List Char) : List Char :=
  ((l.dropWhile isPySpace).reverse.dropWhile isPySpace).reverse

/-- Python substring test `needle in hay`. -/
def containsSub (needle : List Char) : List Char → Bool
  | [] => needle.isPrefixOf []
  | c :: rest => needle.isPrefixOf (c :: rest) || containsSub needle rest

/-- The platform constants of `class Platform` in `agent.py`. -/
def platMacos : List Char := "macos".toList

def platLinux : List Char := "linux".toList

def ydotoolName : List Char := "ydotool".toList

/-- `"GOAL ACHIEVED"`, the goal-completion marker of `main`. -/
def goalMarker : List Char := "GOAL ACHIEVED".toList

/-- Models line 1061 of `agent.py`: `"GOAL ACHIEVED" in observation.upper()`
(a case-insensitive substring test over the whole observation). -/
def goalSignaled (obs : List Char) : Bool :=
  containsSub goalMarker (obs.map pyUpper)

/-- Modelled from the spec: the spec says the goal-completion marker is
checked "at the start of the observation" (case-insensitively); this is the
spec's predicate, to be compared with `goalSignaled` from the source. -/
def goalMarkerAtStart (obs : List Char) : Bool :=
  goalMarker.isPrefixOf (obs.map pyUpper)

/-! ## Command validator (`validate_command`, `validate_commands`) -/

/-- The fixed `dangerous` list literal of `validate_command`. -/
def baseDangerous : List (List Char) :=
  ["rm ".toList, "sudo".toList, "curl ".toList, "wget ".toList,
   "kill ".toList, "pkill".toList, ">>".toList, ";".toList,
   "`".toList, "$(".toList, "eval ".toList]

/-- The platform/tool allow-list of `validate_command`; `none` means the
unsupported-platform rejection branch. -/
def allowedPrefixes (plat : List Char) (tool : Option (List Char)) :
    Option (List (List Char)) :=
  if plat = platMacos then some ["cliclick".toList, "osascript".toList]
  else if plat = platLinux then
    if tool = some ydotoolName then some ["ydotool".toList, "wmctrl".toList]
    else some ["xdotool".toList, "wmctrl".toList]
  else none

/-- Helper for the regex `&&\s*ydotool click`: after a matched `"&&"`,
greedy `\s*` then the literal; existence of a match amounts to skipping the
leading whitespace run. -/
def andClick : List Char → Bool
  | c :: t => c == '&' && ("ydotool click".toList.isPrefixOf (t.dropWhile isPySpace))
  | [] => false

/-- Existence of a match of `.*&&\s*ydotool click` starting anywhere in the
list, where `.` does not match a newline. -/
def mmTail : List Char → Bool
  | [] => false
  | c :: rest => (c == '&' && andClick rest) || (!(c == '\n') && mmTail rest)

/-- Models `re.match(r'^ydotool mousemove.*&&\s*ydotool click', cmd)`
(truthiness only: whether a match exists). -/
def matchMoveClick (cmd : List Char) : Bool :=
  "ydotool mousemove".toList.isPrefixOf cmd &&
    mmTail (cmd.drop "ydotool mousemove".toList.length)

/-- The `dangerous` list as `validate_command` finishes building it for a
given command and input tool: the base list, then `"&&"` unless the
ydotool move-then-click exception applies, then `"||"`. -/
def dangerousFor (cmd : List Char) (tool : Option (List Char)) : List (List Char) :=
  let withAnd :=
    if tool = some ydotoolName ∧ containsSub "&&".toList cmd then
      (if matchMoveClick cmd then baseDangerous else baseDangerous ++ ["&&".toList])
    else if containsSub "&&".toList cmd then baseDangerous ++ ["&&".toList]
    else baseDangerous
  if containsSub "||".toList cmd then withAnd ++ ["||".toList] else withAnd

/-- The Python `repr` of the `allowed_prefixes` tuple, used in the
prefix-rejection message. -/
def prefixesRepr (plat : List Char) (tool : Option (List Char)) : List Char :=
  if plat = platMacos then "(\x27cliclick\x27, \x27osascript\x27)".toList
  else if tool = some ydotoolName then "(\x27ydotool\x27, \x27wmctrl\x27)".toList
  else "(\x27xdotool\x27, \x27wmctrl\x27)".toList

/-- `validate_command(cmd, plat, input_tool) -> (bool, str)`. -/
def validate_command (cmd : List Char) (plat : List Char)
    (tool : Option (List Char)) : Bool × List Char :=
  if cmd = [] then (false, "Empty command".toList)
  else
    match allowedPrefixes plat tool with
    | none => (false, "Unsupported platform: ".toList ++ plat)
    | some ps =>
      if ps.any (fun p => p.isPrefixOf cmd) then
        match (dangerousFor cmd tool).find? (fun d => containsSub d cmd) with
        | some d =>
          (false, "Command contains forbidden pattern \x27".toList ++ d ++ "\x27".toList)
        | none => (true, [])
      else
        (false, "Command must start with one of ".toList ++ prefixesRepr plat tool
          ++ ". Got: ".toList ++ cmd)

/-- The indexed loop of `validate_commands`. -/
def validateFrom (plat : List Char) (tool : Option (List Char)) :
    Nat → List (List Char) → Bool × List Char × Int
  | _, [] => (true, [], -1)
  | i, cmd :: rest =>
    let v := validate_command cmd plat tool
    if v.1 then validateFrom plat tool (i + 1) rest
    else (false, "Command ".toList ++ (toString (i + 1)).toList ++ ": ".toList ++ v.2,
      (i : Int))

/-- `validate_commands(commands, plat, input_tool) -> (bool, str, int)`;
the int is the index of the first failing command, `-1` otherwise. -/
def validate_commands (commands : List (List Char)) (plat : List Char)
    (tool : Option (List Char)) : Bool × List Char × Int :=
  if commands = [] then (false, "No commands provided".toList, -1)
  else validateFrom plat tool 0 commands

/-! ## Response parser (`extract_blocks`) -/

/-- Match of `\s*\n` (greedy star, then backtracking for the literal
newline) against a prefix of the list; returns the remainder after the
matched newline of the successful (greedy-longest) match. -/
def matchWsNl : List Char → Option (List Char)
  | [] => none
  | c :: rest =>
    if isPySpace c then
      match matchWsNl rest with
      | some r => some r
      | none => if c == '\n' then some rest else none
    else none

/-- The lazy capture `(.*?)(?=###|$)` with `re.DOTALL`: everything up to
the first `"###"` or the end of the text. -/
def captureTo : List Char → List Char
  | [] => []
  | c :: rest =>
    if ("###".toList).isPrefixOf (c :: rest) then [] else c :: captureTo rest

/-- Attempt the pattern `marker\s*\n(.*?)(?=###|$)` at the head of `l`. -/
def tryMarkerAt (marker l : List Char) : Option (List Char) :=
  if marker.isPrefixOf l then
    match matchWsNl (l.drop marker.length) with
    | some rest => some (captureTo rest)
    | none => none
  else none

/-- `re.search` for the section pattern: leftmost position at which the
marker followed by `\s*\n` matches; returns the captured group. -/
def searchSection (marker : List Char) : List Char → Option (List Char)
  | [] => none
  | c :: rest =>
    match tryMarkerAt marker (c :: rest) with
    | some cap => some cap
    | none => searchSection marker rest

/-- The command-section postprocessing of `extract_blocks`: strip, split on
newlines, strip each line, keep the non-blank ones, take the first five. -/
def cmdSectionLines (cap : List Char) : List (List Char) :=
  ((((pyStrip cap).splitOn '\n').map pyStrip).filter (fun l => l ≠ [])).take 5

/-- The result triple of `extract_blocks`. -/
structure Extracted where
  obs : List Char
  think : List Char
  commands : List (List Char)
  deriving DecidableEq, Repr

/-- `extract_blocks(text) -> (obs, think, commands)`. -/
def extract_blocks (text : List Char) : Extracted :=
  let obs := match searchSection "###OBS".toList text with
    | some cap => pyStrip cap
    | none => []
  let think := match searchSection "###THINK".toList text with
    | some cap => pyStrip cap
    | none => []
  let commands := match searchSection "###CMD".toList text with
    | some cap => cmdSectionLines cap
    | none => []
  ⟨obs, think, commands⟩

/-! ## Action executor (`execute_command`, `execute_commands`)

The OS-level outcome of running one command is external; it is modelled by
`ExecOutcome` (normal completion with exit code and output, timeout, or an
execution exception), and the executor is parameterised by an oracle
assigning an outcome to each command. -/

/-- What `subprocess.run` did for a single command. -/
inductive ExecOutcome where
  | completed (returncode : Int) (stdout stderr : List Char)
  | timeout
  | exn (msg : List Char)
  deriving DecidableEq, Repr

/-- `execute_command`: converts the OS outcome into the `(success, result)`
pair; a timeout or exception becomes a failure result, nothing propagates. -/
def execute_command (o : ExecOutcome) : Bool × List Char :=
  match o with
  | .completed rc out err =>
    let output := out ++ err
    if rc = 0 then (true, if output = [] then "OK".toList else output.take 200)
    else (false, "FAILED: ".toList ++ output.take 200)
  | .timeout => (false, "TIMEOUT after 30s".toList)
  | .exn e => (false, "ERROR: ".toList ++ e)

/-- One `(command, succeeded, output_excerpt)` result record. -/
abbrev CmdResult := List Char × Bool × List Char

/-- `execute_commands`: run in order, record each result, stop the sequence
after the first failing command. -/
def execute_commands (env : List Char → ExecOutcome) :
    List (List Char) → List CmdResult
  | [] => []
  | cmd :: rest =>
    let r := execute_command (env cmd)
    (cmd, r.1, r.2) :: (if r.1 then execute_commands env rest else [])

/-! ## Action history ledger (`ActionHistory`) -/

/-- The fields `add_action` stores per action in `action_history.json`. -/
structure ActionRec where
  iteration : Nat
  observation : List Char
  reasoning : List Char
  commands : List (List Char)
  commandsCount : Nat
  executedCount : Nat
  allSucceeded : Bool
  resultSummary : List Char
  deriving DecidableEq, Repr

/-- The `result_summary` string of `add_action`. -/
def resultsSummary (results : List CmdResult) : List Char :=
  if results = [] then "No execution".toList
  else List.intercalate " | ".toList
    (results.map fun r =>
      "[".toList ++ (if r.2.1 then "OK".toList else "FAIL".toList) ++ "] ".toList
        ++ r.2.2.take 50)

/-- The session state persisted by `ActionHistory` (goal, status,
iteration count, append-only action list). -/
structure Session where
  goal : List Char
  status : List Char
  iterations : Nat
  actions : List ActionRec
  deriving DecidableEq, Repr

/-- `ActionHistory._init_history`: a fresh session. -/
def initSession (goal : List Char) : Session :=
  ⟨goal, "in_progress".toList, 0, []⟩

/-- `ActionHistory.add_action`: set the iteration counter and append one
record; `executed_count` is the number of result entries. -/
def add_action (s : Session) (iteration : Nat) (obs think : List Char)
    (commands : List (List Char)) (results : List CmdResult) : Session :=
  { s with
    iterations := iteration,
    actions := s.actions ++
      [{ iteration := iteration
         observation := obs
         reasoning := think
         commands := commands
         commandsCount := commands.length
         executedCount := results.length
         allSucceeded := if results = [] then false else results.all fun r => r.2.1
         resultSummary := resultsSummary results }] }

/-- `ActionHistory.mark_completed`. -/
def mark_completed (s : Session) : Session :=
  { s with status := "completed".toList }

/-! ## Loop controller (`main`) -/

/-- Why an iteration ended the loop (if it did). -/
inductive TermReason where
  | backendError
  | goalAchieved
  | invalidCommand
  deriving DecidableEq, Repr

/-- What one loop iteration produced: the updated session, whether and why
the loop stops, and whether the raw response artifact was archived to
`past_screens` (which `main` does only on the invalid-command path). -/
structure IterOut where
  session : Session
  stop : Option TermReason
  rawArchived : Bool
  deriving DecidableEq, Repr

/-- One iteration of the `for` loop in `main`: backend call (the response
text, or `none` when `backend.call` raised), parse, goal check, validate,
execute, append. -/
def run_iteration (plat : List Char) (tool : Option (List Char))
    (env : List Char → ExecOutcome) (response : Option (List Char))
    (iteration : Nat) (s : Session) : IterOut :=
  match response with
  | none => ⟨s, some .backendError, false⟩
  | some resp =>
    let e := extract_blocks resp
    if goalSignaled e.obs then
      let s1 := add_action s iteration e.obs e.think e.commands
        [((match e.commands with | [] => "goal".toList | c :: _ => c), true,
          "Goal completed".toList)]
      ⟨mark_completed s1, some .goalAchieved, false⟩
    else
      let v := validate_commands e.commands plat tool
      if v.1 then
        ⟨add_action s iteration e.obs e.think e.commands
          (execute_commands env e.commands), none, false⟩
      else
        -- `commands[failed_idx] if failed_idx >= 0 else "N/A"`; the
        -- validator returns an in-range index whenever it is ≥ 0.
        let rejected := if 0 ≤ v.2.2 then e.commands.getD v.2.2.toNat [] else "N/A".toList
        ⟨add_action s iteration e.obs e.think e.commands
          [(rejected, false, "REJECTED: ".toList ++ v.2.1)],
         some .invalidCommand, true⟩

/-- The four ways the run can end. -/
inductive LoopResult where
  | goalAchieved
  | backendError
  | invalidCommand
  | maxIterationsReached
  deriving DecidableEq, Repr

/-- Process exit code of each ending: `sys.exit(1)` on backend failure and
on command rejection, normal (0) exit on goal achieved and on the
max-iterations soft stop. -/
def exit_code : LoopResult → Nat
  | .goalAchieved => 0
  | .backendError => 1
  | .invalidCommand => 1
  | .maxIterationsReached => 0

/-- The `for iteration in range(1, max_iter + 1)` loop of `main`, with
`remaining` iterations left and `iteration` the current 1-based counter;
exhausting the range reaches the `else:` soft stop. -/
def run_from (plat : List Char) (tool : Option (List Char))
    (responses : Nat → Option (List Char)) (envs : Nat → List Char → ExecOutcome) :
    Nat → Nat → Session → Session × LoopResult
  | 0, _, s => (s, .maxIterationsReached)
  | remaining + 1, iteration, s =>
    let out := run_iteration plat tool (envs iteration) (responses iteration) iteration s
    match out.stop with
    | some .backendError => (out.session, .backendError)
    | some .goalAchieved => (out.session, .goalAchieved)
    | some .invalidCommand => (out.session, .invalidCommand)
    | none => run_from plat tool responses envs remaining (iteration + 1) out.session

/-- The whole loop of `main`: `max_iter` iterations starting at 1 on a
fresh session. -/
def run_main (plat : List Char) (tool : Option (List Char))
    (responses : Nat → Option (List Char)) (envs : Nat → List Char → ExecOutcome)
    (maxIter : Nat) (goal : List Char) : Session × LoopResult :=
  run_from plat tool responses envs maxIter 1 (initSession goal)

/-! ## Concrete sample inputs used by witnesses and counterexamples -/

/-- The ledger invariant claimed by the spec, as the disjunction that the
code actually maintains: the executed count is bounded by the command
count, or the record is one of the synthetic single-result records written
on an empty command list. -/
def actionOk (a : ActionRec) : Bool :=
  decide (a.executedCount ≤ a.commandsCount) ||
    (a.commandsCount == 0 && a.executedCount == 1)

/-- Modelled from the spec: the invariant exactly as the spec claims it,
`len(results) ≤ len(commands)` for every appended record. -/
def actionLenInv (a : ActionRec) : Bool :=
  decide (a.executedCount ≤ a.commandsCount)

/-- An execution environment in which every command succeeds silently. -/
def envOK : List Char → ExecOutcome := fun _ => .completed 0 [] []

/-- Environment for the stop-on-failure scenario: `cmdB` times out,
everything else succeeds. -/
def sampleEnv : List Char → ExecOutcome := fun c =>
  if c = "cmdB".toList then .timeout else .completed 0 [] []

/-- A well-formed model response that does not signal goal completion. -/
def okResp : List Char :=
  "###OBS\nok\n###THINK\nt\n###CMD\nxdotool key a".toList

/-- A response whose observation starts with the goal marker. -/
def goalResp : List Char :=
  "###OBS\nGOAL ACHIEVED: done\n###THINK\nt\n###CMD\nxdotool key Escape".toList

/-- A response whose observation carries the goal marker only in the middle
(and in lower case). -/
def midGoalResp : List Char :=
  "###OBS\nAll good, goal achieved.\n###THINK\nt\n###CMD\nxdotool key a".toList

/-- A response with no `###CMD` section at all. -/
def noCmdResp : List Char :=
  "###OBS\nSomething\n###THINK\nt".toList

/-- A response whose single command fails validation. -/
def badCmdResp : List Char :=
  "###OBS\nSomething\n###THINK\nt\n###CMD\nbadcmd".toList

/-- A response with all three markers and a seven-line command section. -/
def sampleResponse7 : List Char :=
  ("###OBS\nDesktop visible\n###THINK\nOpen the browser\n###CMD\n"
    ++ "xdotool key a\nxdotool key b\nxdotool key c\nxdotool key d\n"
    ++ "xdotool key e\nxdotool key f\nxdotool key g").toList

/-! ## Helper lemmas -/

theorem containsSub_false_not_isPrefixOf {m : List Char} {c : Char} {rest : List Char}
    (h : containsSub m (c :: rest) = false) :
    m.isPrefixOf (c :: rest) = false ∧ containsSub m rest = false := by
  simpa [containsSub, Bool.or_eq_false_iff] using h

theorem searchSection_eq_none {m t : List Char} (h : containsSub m t = false) :
    searchSection m t = none := by
  induction t with
  | nil => rfl
  | cons c rest ih =>
    obtain ⟨h1, h2⟩ := containsSub_false_not_isPrefixOf h
    simp [searchSection, tryMarkerAt, h1, ih h2]

theorem ne_nil_of_isPrefixOf_ne_nil {p cmd : List Char}
    (hp : p.isPrefixOf cmd = true) (hne : p ≠ []) : cmd ≠ [] := by
  cases p with
  | nil => exact absurd rfl hne
  | cons a as =>
    cases cmd with
    | nil => simp [List.isPrefixOf] at hp
    | cons b bs => exact List.cons_ne_nil b bs

theorem allowedPrefixes_mem_ne_nil {plat : List Char} {tool : Option (List Char)}
    {ps : List (List Char)} (h : allowedPrefixes plat tool = some ps) :
    ∀ p ∈ ps, p ≠ [] := by
  unfold allowedPrefixes at h
  split at h
  · cases h; decide
  · split at h
    · split at h
      · cases h; decide
      · cases h; decide
    · cases h

/-- Any command in which some entry of its `dangerous` list occurs is
rejected, on every platform and with every input tool. -/
theorem validate_command_false_of_dangerous {cmd plat : List Char}
    {tool : Option (List Char)} {d : List Char}
    (hmem : d ∈ dangerousFor cmd tool) (hinf : containsSub d cmd = true) :
    (validate_command cmd plat tool).1 = false := by
  unfold validate_command
  split
  · rfl
  · split
    · rfl
    · split
      · split
        · rfl
        · rename_i hfind
          have : ((dangerousFor cmd tool).find? (fun d => containsSub d cmd)).isSome := by
            exact List.find?_isSome.mpr ⟨d, hmem, hinf⟩
          rw [hfind] at this
          simp at this
      · rfl

/-- A nonempty command that starts with an allowed prefix and in which no
entry of its `dangerous` list occurs is accepted. -/
theorem validate_command_ok {cmd plat : List Char} {tool : Option (List Char)}
    {ps : List (List Char)} (hp : allowedPrefixes plat tool = some ps)
    (hpre : ps.any (fun p => p.isPrefixOf cmd) = true)
    (hd : ∀ d ∈ dangerousFor cmd tool, containsSub d cmd = false) :
    validate_command cmd plat tool = (true, []) := by
  have hne : cmd ≠ [] := by
    obtain ⟨p, hpm, hppre⟩ := List.any_eq_true.mp hpre
    exact ne_nil_of_isPrefixOf_ne_nil hppre (allowedPrefixes_mem_ne_nil hp p hpm)
  have hfind : (dangerousFor cmd tool).find? (fun d => containsSub d cmd) = none :=
    List.find?_eq_none.mpr (by intro d hdm; simp [hd d hdm])
  unfold validate_command
  rw [if_neg hne, hp]
  simp only [hpre, if_true, hfind]

theorem mem_dangerousFor_of_base {cmd : List Char} {tool : Option (List Char)}
    {d : List Char} (h : d ∈ baseDangerous) : d ∈ dangerousFor cmd tool := by
  simp only [dangerousFor]
  split_ifs <;> simp [List.mem_append, h]

theorem or_mem_dangerousFor {cmd : List Char} {tool : Option (List Char)}
    (h : containsSub "||".toList cmd = true) :
    "||".toList ∈ dangerousFor cmd tool := by
  simp only [dangerousFor]
  split_ifs <;> simp_all [List.mem_append]

theorem and_mem_dangerousFor {cmd : List Char} {tool : Option (List Char)}
    (hinf : containsSub "&&".toList cmd = true)
    (hexc : ¬ (tool = some ydotoolName ∧ matchMoveClick cmd = true)) :
    "&&".toList ∈ dangerousFor cmd tool := by
  simp only [dangerousFor]
  by_cases hy : tool = some ydotoolName
  · have hm : matchMoveClick cmd = false := by
      cases hmc : matchMoveClick cmd with
      | false => rfl
      | true => exact absurd ⟨hy, hmc⟩ hexc
    simp only [hy, hinf, hm, true_and, and_true, if_true, Bool.false_eq_true, if_false]
    split_ifs <;> simp [List.mem_append]
  · simp only [hy, hinf, false_and, if_false, if_true]
    split_ifs <;> simp_all [List.mem_append]

theorem validateFrom_true {plat : List Char} {tool : Option (List Char)} :
    ∀ (i : Nat) (cmds : List (List Char)),
    (∀ cmd ∈ cmds, (validate_command cmd plat tool).1 = true) →
    validateFrom plat tool i cmds = (true, [], -1)
  | _, [], _ => rfl
  | i, cmd :: rest, h => by
    have hc := h cmd (List.mem_cons_self cmd rest)
    simp only [validateFrom, hc, if_true]
    exact validateFrom_true (i + 1) rest fun c hcm => h c (List.mem_cons_of_mem _ hcm)

/-- A nonempty batch of individually accepted commands is accepted. -/
theorem validate_commands_true {commands : List (List Char)} {plat : List Char}
    {tool : Option (List Char)} (hne : commands ≠ [])
    (h : ∀ cmd ∈ commands, (validate_command cmd plat tool).1 = true) :
    validate_commands commands plat tool = (true, [], -1) := by
  unfold validate_commands
  rw [if_neg hne]
  exact validateFrom_true 0 commands h

theorem execute_commands_length_le (env : List Char → ExecOutcome) :
    ∀ cmds : List (List Char), (execute_commands env cmds).length ≤ cmds.length := by
  intro cmds
  induction cmds with
  | nil => simp [execute_commands]
  | cons c rest ih =>
    simp only [execute_commands, List.length_cons]
    split
    · exact Nat.succ_le_succ ih
    · exact Nat.succ_le_succ (Nat.zero_le _)

theorem execute_commands_map_fst (env : List Char → ExecOutcome) :
    ∀ cmds : List (List Char), (execute_commands env cmds).map Prod.fst <+: cmds := by
  intro cmds
  induction cmds with
  | nil => simp [execute_commands]
  | cons c rest ih =>
    simp only [execute_commands, List.map_cons]
    split
    · exact List.cons_prefix_cons.mpr ⟨rfl, ih⟩
    · exact List.cons_prefix_cons.mpr ⟨rfl, List.nil_prefix⟩

theorem execute_commands_dropLast_all (env : List Char → ExecOutcome) :
    ∀ cmds : List (List Char),
    ((execute_commands env cmds).dropLast).all (fun r => r.2.1) = true := by
  intro cmds
  induction cmds with
  | nil => simp [execute_commands]
  | cons c rest ih =>
    simp only [execute_commands]
    cases hr : (execute_command (env c)).1 with
    | false => simp
    | true =>
      simp only [if_true]
      cases hrec : execute_commands env rest with
      | nil => simp
      | cons a l =>
        rw [← hrec, List.dropLast_cons_of_ne_nil (by rw [hrec]; exact List.cons_ne_nil a l)]
        simp only [List.all_cons, hr, Bool.true_and]
        exact ih

theorem run_iteration_goal {plat : List Char} {tool : Option (List Char)}
    {env : List Char → ExecOutcome} {resp : List Char} {it : Nat} {s : Session}
    (h : goalSignaled (extract_blocks resp).obs = true) :
    run_iteration plat tool env (some resp) it s =
      ⟨mark_completed (add_action s it (extract_blocks resp).obs
        (extract_blocks resp).think (extract_blocks resp).commands
        [((match (extract_blocks resp).commands with
            | [] => "goal".toList | c :: _ => c), true, "Goal completed".toList)]),
       some .goalAchieved, false⟩ := by
  simp only [run_iteration, h, if_true]

theorem run_iteration_normal {plat : List Char} {tool : Option (List Char)}
    {env : List Char → ExecOutcome} {resp : List Char} {it : Nat} {s : Session}
    (hg : goalSignaled (extract_blocks resp).obs = false)
    (hv : (validate_commands (extract_blocks resp).commands plat tool).1 = true) :
    run_iteration plat tool env (some resp) it s =
      ⟨add_action s it (extract_blocks resp).obs (extract_blocks resp).think
        (extract_blocks resp).commands
        (execute_commands env (extract_blocks resp).commands), none, false⟩ := by
  simp only [run_iteration, hg, Bool.false_eq_true, if_false, hv, if_true]

theorem run_iteration_invalid {plat : List Char} {tool : Option (List Char)}
    {env : List Char → ExecOutcome} {resp : List Char} {it : Nat} {s : Session}
    (hg : goalSignaled (extract_blocks resp).obs = false)
    (hv : (validate_commands (extract_blocks resp).commands plat tool).1 = false) :
    run_iteration plat tool env (some resp) it s =
      ⟨add_action s it (extract_blocks resp).obs (extract_blocks resp).think
        (extract_blocks resp).commands
        [((if 0 ≤ (validate_commands (extract_blocks resp).commands plat tool).2.2 then
            (extract_blocks resp).commands.getD
              (validate_commands (extract_blocks resp).commands plat tool).2.2.toNat []
          else "N/A".toList), false,
          "REJECTED: ".toList ++ (validate_commands (extract_blocks resp).commands plat tool).2.1)],
       some .invalidCommand, true⟩ := by
  simp only [run_iteration, hg, Bool.false_eq_true, if_false, hv]

/-! ## Claim theorems -/

/-- Claim C4 (confirmed): every command containing `"&&"` is rejected
unless the input tool is ydotool and the command matches the
move-pointer-then-click pattern; and the canonical ydotool move-then-click
command is indeed accepted under ydotool. -/
theorem c4_and_chaining_needs_move_click
    (cmd plat : List Char) (tool : Option (List Char))
    (hinf : containsSub "&&".toList cmd = true)
    (hexc : ¬ (tool = some ydotoolName ∧ matchMoveClick cmd = true)) :
    (validate_command cmd plat tool).1 = false ∧
    validate_command "ydotool mousemove -a 5 5 && ydotool click 0xC0".toList
      platLinux (some ydotoolName) = (true, []) :=
  ⟨validate_command_false_of_dangerous (and_mem_dangerousFor hinf hexc) hinf, by decide⟩

/-- Witness for C4: the same move-then-click text is rejected when the
active tool is xdotool. -/
theorem c4_and_chaining_needs_move_click_witness :
    (validate_command "ydotool mousemove -a 5 5 && ydotool click 0xC0".toList
      platLinux (some "xdotool".toList)).1 = false :=
  (c4_and_chaining_needs_move_click
    "ydotool mousemove -a 5 5 && ydotool click 0xC0".toList platLinux
    (some "xdotool".toList) (by decide) (by decide)).1

/-- Claim C5 (confirmed): any command containing one of the fixed dangerous
substrings (the base deny-list, or logical-OR chaining) is rejected on
every platform and with every input tool, regardless of its prefix. -/
theorem c5_dangerous_substring_rejected
    (cmd plat : List Char) (tool : Option (List Char)) (d : List Char)
    (hd : d ∈ baseDangerous ++ ["||".toList])
    (hinf : containsSub d cmd = true) :
    (validate_command cmd plat tool).1 = false := by
  rcases List.mem_append.mp hd with hb | ho
  · exact validate_command_false_of_dangerous (mem_dangerousFor_of_base hb) hinf
  · have hd2 : d = "||".toList := by simpa using ho
    subst hd2
    exact validate_command_false_of_dangerous (or_mem_dangerousFor hinf) hinf

/-- Witness for C5: a command with an allowed prefix containing the
privilege-escalation token is rejected. -/
theorem c5_dangerous_substring_rejected_witness :
    (validate_command "cliclick t:sudo".toList platMacos none).1 = false :=
  c5_dangerous_substring_rejected "cliclick t:sudo".toList platMacos none
    "sudo".toList (by decide) (by decide)

/-- Claim C6 (confirmed): a nonempty batch in which every command starts
with an allowed prefix for the platform and input tool and contains no
entry of its dangerous list is accepted by `validate_commands`. -/
theorem c6_clean_batch_accepted
    (commands : List (List Char)) (plat : List Char) (tool : Option (List Char))
    (ps : List (List Char)) (hps : allowedPrefixes plat tool = some ps)
    (hne : commands ≠ [])
    (h : ∀ cmd ∈ commands, ps.any (fun p => p.isPrefixOf cmd) = true ∧
         ∀ d ∈ dangerousFor cmd tool, containsSub d cmd = false) :
    validate_commands commands plat tool = (true, [], -1) := by
  refine validate_commands_true hne fun cmd hc => ?_
  obtain ⟨h1, h2⟩ := h cmd hc
  rw [validate_command_ok hps h1 h2]

/-- Witness for C6: a two-command xdotool batch on Linux/X11 is accepted. -/
theorem c6_clean_batch_accepted_witness :
    validate_commands ["xdotool key Return".toList, "wmctrl -a Firefox".toList]
      platLinux none = (true, [], -1) :=
  c6_clean_batch_accepted
    ["xdotool key Return".toList, "wmctrl -a Firefox".toList] platLinux none
    ["xdotool".toList, "wmctrl".toList] (by decide) (by decide) (by decide)

/-- Claim C10 (confirmed): the allow-list check is a raw string-prefix
test, so any command merely beginning with an allowed tool name (no
separator required) passes it and, free of forbidden substrings, is
accepted; in particular `"xdotoolanything --weird stuff"` on Linux/X11. -/
theorem c10_raw_string_prefix_test
    (cmd plat : List Char) (tool : Option (List Char))
    (ps : List (List Char)) (hps : allowedPrefixes plat tool = some ps)
    (hpre : ps.any (fun p => p.isPrefixOf cmd) = true)
    (hd : ∀ d ∈ dangerousFor cmd tool, containsSub d cmd = false) :
    validate_command cmd plat tool = (true, []) ∧
    validate_command "xdotoolanything --weird stuff".toList platLinux none
      = (true, []) :=
  ⟨validate_command_ok hps hpre hd, by decide⟩

/-- Witness for C10: the raw-prefix acceptance applied at the example
command itself. -/
theorem c10_raw_string_prefix_test_witness :
    validate_command "xdotoolanything --weird stuff".toList platLinux none
      = (true, []) :=
  (c10_raw_string_prefix_test "xdotoolanything --weird stuff".toList platLinux
    none ["xdotool".toList, "wmctrl".toList] (by decide) (by decide) (by decide)).1

/-- Claim C8 (confirmed): the executor runs commands in order, every result
before the last one succeeded (so the sequence stops at the first
failure), timeouts and exceptions become failure results rather than
propagating, and the concrete success/fail/success batch yields exactly two
results with `all_succeeded` false and the third command never attempted. -/
theorem c8_executor_stop_on_failure
    (env : List Char → ExecOutcome) (cmds : List (List Char)) (m : List Char) :
    (execute_commands env cmds).map Prod.fst <+: cmds ∧
    (execute_commands env cmds).length ≤ cmds.length ∧
    ((execute_commands env cmds).dropLast).all (fun r => r.2.1) = true ∧
    execute_command .timeout = (false, "TIMEOUT after 30s".toList) ∧
    execute_command (.exn m) = (false, "ERROR: ".toList ++ m) ∧
    (execute_commands sampleEnv ["cmdA".toList, "cmdB".toList, "cmdC".toList]).map
      Prod.fst = ["cmdA".toList, "cmdB".toList] ∧
    (execute_commands sampleEnv ["cmdA".toList, "cmdB".toList, "cmdC".toList]).length
      = 2 ∧
    ((execute_commands sampleEnv ["cmdA".toList, "cmdB".toList, "cmdC".toList]).all
      (fun r => r.2.1)) = false :=
  ⟨execute_commands_map_fst env cmds, execute_commands_length_le env cmds,
   execute_commands_dropLast_all env cmds, rfl, rfl, by decide, by decide, by decide⟩

/-- Claim C7 (confirmed): the parser keeps at most the first five non-blank
command lines (the seven-line sample yields exactly the first five), any
missing section marker degrades to an empty string or empty list, and the
empty command list is rejected by the validator as "no commands". -/
theorem c7_parser_blocks
    (t u1 u2 u3 plat : List Char) (tool : Option (List Char))
    (h1 : containsSub "###OBS".toList u1 = false)
    (h2 : containsSub "###THINK".toList u2 = false)
    (h3 : containsSub "###CMD".toList u3 = false) :
    (extract_blocks t).commands.length ≤ 5 ∧
    (extract_blocks u1).obs = [] ∧
    (extract_blocks u2).think = [] ∧
    (extract_blocks u3).commands = [] ∧
    extract_blocks sampleResponse7 =
      ⟨"Desktop visible".toList, "Open the browser".toList,
       ["xdotool key a".toList, "xdotool key b".toList, "xdotool key c".toList,
        "xdotool key d".toList, "xdotool key e".toList]⟩ ∧
    validate_commands [] plat tool = (false, "No commands provided".toList, -1) := by
  refine ⟨?_, ?_, ?_, ?_, by decide, rfl⟩
  · unfold extract_blocks
    cases hs : searchSection "###CMD".toList t with
    | none => simp
    | some cap => simp [cmdSectionLines]
  · simp only [extract_blocks]
    rw [searchSection_eq_none h1]
  · simp only [extract_blocks]
    rw [searchSection_eq_none h2]
  · simp only [extract_blocks]
    rw [searchSection_eq_none h3]

/-- Witness for C7: a marker-free text yields no commands at all. -/
theorem c7_parser_blocks_witness :
    (extract_blocks "no markers here".toList).commands = [] :=
  (c7_parser_blocks "x".toList "no markers here".toList "no markers here".toList
    "no markers here".toList platLinux none
    (by decide) (by decide) (by decide)).2.2.2.1

/-! ## C1: goal-achieved detection -/

/-- Counterexample to C1 as stated: an observation that carries the goal
marker only in its middle (not at its start) still drives the loop into
the goal-achieved transition, because the code tests the marker as a
substring of the uppercased observation. -/
theorem c1_counterexample :
    goalMarkerAtStart (extract_blocks midGoalResp).obs = false ∧
    (run_iteration platLinux none envOK (some midGoalResp) 1
      (initSession "g".toList)).stop = some .goalAchieved := by decide

/-- Claim C1 (amended): the loop transitions to GoalAchieved if and only if
the observation carries the case-insensitive goal marker anywhere in its
text; on that path a single synthetic completed action is appended, the
session is marked completed, the executor environment is never consulted,
and the terminal state exits with code zero. -/
theorem c1_goal_marker_anywhere
    (plat : List Char) (tool : Option (List Char))
    (env env2 : List Char → ExecOutcome) (resp resp2 : List Char)
    (it : Nat) (s : Session)
    (h : goalSignaled (extract_blocks resp).obs = true) :
    ((run_iteration plat tool env (some resp2) it s).stop = some .goalAchieved
       ↔ goalSignaled (extract_blocks resp2).obs = true) ∧
    (run_iteration plat tool env (some resp) it s).stop = some .goalAchieved ∧
    run_iteration plat tool env (some resp) it s
      = run_iteration plat tool env2 (some resp) it s ∧
    (run_iteration plat tool env (some resp) it s).session.status
      = "completed".toList ∧
    (run_iteration plat tool env (some resp) it s).session.actions.length
      = s.actions.length + 1 ∧
    ((run_iteration plat tool env (some resp) it s).session.actions.getLast?.map
      (fun a => (a.executedCount, a.allSucceeded))) = some (1, true) ∧
    exit_code .goalAchieved = 0 := by
  have hiff : ∀ r : List Char,
      ((run_iteration plat tool env (some r) it s).stop = some .goalAchieved
        ↔ goalSignaled (extract_blocks r).obs = true) := by
    intro r
    cases hg : goalSignaled (extract_blocks r).obs with
    | true => rw [run_iteration_goal hg]; simp
    | false =>
      cases hv : (validate_commands (extract_blocks r).commands plat tool).1 with
      | true => rw [run_iteration_normal hg hv]; simp
      | false => rw [run_iteration_invalid hg hv]; simp
  refine ⟨hiff resp2, (hiff resp).mpr h, ?_, ?_, ?_, ?_, rfl⟩
  · simp only [run_iteration, h, if_true]
  · rw [run_iteration_goal h]
    simp [mark_completed, add_action]
  · rw [run_iteration_goal h]
    simp [mark_completed, add_action]
  · rw [run_iteration_goal h]
    simp [mark_completed, add_action]

/-- Witness for C1: the spec's own scenario, observation
`"GOAL ACHIEVED: done"`: the goal transition fires and the result does not
depend on the execution environment. -/
theorem c1_goal_marker_anywhere_witness :
    (run_iteration platLinux none envOK (some goalResp) 1
      (initSession "g".toList)).stop = some .goalAchieved ∧
    run_iteration platLinux none envOK (some goalResp) 1 (initSession "g".toList)
      = run_iteration platLinux none sampleEnv (some goalResp) 1
        (initSession "g".toList) := by
  have h := c1_goal_marker_anywhere platLinux none envOK sampleEnv goalResp
    goalResp 1 (initSession "g".toList) (by decide)
  exact ⟨h.2.1, h.2.2.1⟩

/-! ## C2: validation-rejection path -/

/-- Counterexample to C2 as stated: on the rejection path the appended
record's executed count is 1 (a single synthetic rejected result entry),
not 0 as the claim states. -/
theorem c2_counterexample :
    ((run_iteration platLinux none envOK (some badCmdResp) 1
        (initSession "g".toList)).session.actions.getLast?.map
      (fun a => a.executedCount)) = some 1 ∧
    ((run_iteration platLinux none envOK (some badCmdResp) 1
        (initSession "g".toList)).session.actions.getLast?.map
      (fun a => a.executedCount)) ≠ some 0 := by decide

/-- Claim C2 (amended): on every iteration whose batch fails validation the
loop aborts with the invalid-command terminal state and exit code 1, the
raw response artifact is archived, no command is executed (the execution
environment is never consulted), and the appended rejected Action records
the validator's message with an executed count of one (a single synthetic
rejected result entry), not zero. -/
theorem c2_validation_rejection_aborts
    (plat : List Char) (tool : Option (List Char))
    (env env2 : List Char → ExecOutcome) (resp : List Char)
    (it rem : Nat) (s : Session)
    (responses : Nat → Option (List Char)) (envs : Nat → List Char → ExecOutcome)
    (hg : goalSignaled (extract_blocks resp).obs = false)
    (hv : (validate_commands (extract_blocks resp).commands plat tool).1 = false)
    (hr : responses it = some resp) :
    (run_iteration plat tool env (some resp) it s).stop = some .invalidCommand ∧
    (run_iteration plat tool env (some resp) it s).rawArchived = true ∧
    run_iteration plat tool env (some resp) it s
      = run_iteration plat tool env2 (some resp) it s ∧
    ((run_iteration plat tool env (some resp) it s).session.actions.getLast?.map
      (fun a => (a.executedCount, a.resultSummary)))
      = some (1, "[".toList ++ "FAIL".toList ++ "] ".toList
          ++ ("REJECTED: ".toList
             ++ (validate_commands (extract_blocks resp).commands plat tool).2.1).take 50) ∧
    run_from plat tool responses envs (rem + 1) it s
      = ((run_iteration plat tool (envs it) (some resp) it s).session,
         .invalidCommand) ∧
    exit_code .invalidCommand = 1 := by
  refine ⟨?_, ?_, ?_, ?_, ?_, rfl⟩
  · rw [run_iteration_invalid hg hv]
  · rw [run_iteration_invalid hg hv]
  · simp only [run_iteration, hg, Bool.false_eq_true, if_false, hv]
  · rw [run_iteration_invalid hg hv]
    simp [add_action, resultsSummary, List.intercalate]
  · simp only [run_from, hr]
    rw [run_iteration_invalid hg hv]

/-- Witness for C2: the invalid single-command scenario aborts the run and
archives the raw response. -/
theorem c2_validation_rejection_aborts_witness :
    (run_iteration platLinux none envOK (some badCmdResp) 1
      (initSession "g".toList)).stop = some .invalidCommand ∧
    (run_iteration platLinux none envOK (some badCmdResp) 1
      (initSession "g".toList)).rawArchived = true := by
  have h := c2_validation_rejection_aborts platLinux none envOK sampleEnv
    badCmdResp 1 0 (initSession "g".toList) (fun _ => some badCmdResp)
    (fun _ => envOK) (by decide) (by decide) rfl
  exact ⟨h.1, h.2.1⟩

/-! ## C3: ledger length invariant -/

theorem run_iteration_preserves_actionOk
    (plat : List Char) (tool : Option (List Char)) (env : List Char → ExecOutcome)
    (response : Option (List Char)) (it : Nat) (s : Session)
    (h : s.actions.all actionOk = true) :
    (run_iteration plat tool env response it s).session.actions.all actionOk
      = true := by
  cases response with
  | none => exact h
  | some resp =>
    cases hg : goalSignaled (extract_blocks resp).obs with
    | true =>
      rw [run_iteration_goal hg]
      simp only [mark_completed, add_action, List.all_append, h, Bool.true_and,
        List.all_cons, List.all_nil, Bool.and_true]
      cases (extract_blocks resp).commands with
      | nil => simp [actionOk]
      | cons c cs => simp [actionOk]
    | false =>
      cases hv : (validate_commands (extract_blocks resp).commands plat tool).1 with
      | true =>
        rw [run_iteration_normal hg hv]
        simp only [add_action, List.all_append, h, Bool.true_and, List.all_cons,
          List.all_nil, Bool.and_true]
        have hle := execute_commands_length_le env (extract_blocks resp).commands
        simp [actionOk, hle]
      | false =>
        rw [run_iteration_invalid hg hv]
        simp only [add_action, List.all_append, h, Bool.true_and, List.all_cons,
          List.all_nil, Bool.and_true]
        cases (extract_blocks resp).commands with
        | nil => simp [actionOk]
        | cons c cs => simp [actionOk]

theorem run_from_preserves_actionOk
    (plat : List Char) (tool : Option (List Char))
    (responses : Nat → Option (List Char)) (envs : Nat → List Char → ExecOutcome) :
    ∀ (rem it : Nat) (s : Session), s.actions.all actionOk = true →
    (run_from plat tool responses envs rem it s).1.actions.all actionOk = true := by
  intro rem
  induction rem with
  | zero => intro it s h; exact h
  | succ n ih =>
    intro it s h
    have hpres := run_iteration_preserves_actionOk plat tool (envs it)
      (responses it) it s h
    simp only [run_from]
    cases hstop : (run_iteration plat tool (envs it) (responses it) it s).stop with
    | none => exact ih (it + 1) _ hpres
    | some r => cases r <;> exact hpres

/-- Counterexample to C3 as stated: a response with no command section and
no goal marker is rejected, and the rejected record has zero commands but
one result entry, so `len(results) ≤ len(commands)` fails for it. -/
theorem c3_counterexample :
    ((run_iteration platLinux none envOK (some noCmdResp) 1
        (initSession "g".toList)).session.actions.map
      (fun a => (a.commandsCount, a.executedCount))) = [(0, 1)] ∧
    ((run_iteration platLinux none envOK (some noCmdResp) 1
        (initSession "g".toList)).session.actions.all actionLenInv) = false := by
  decide

/-- Claim C3 (amended): every Action record appended during a run satisfies
`len(results) ≤ len(commands)` or is one of the synthetic single-result
records (goal-achieved or validation-rejection path) written with an empty
command list, which carry exactly one result and zero commands. -/
theorem c3_ledger_length_invariant
    (plat gl : List Char) (tool : Option (List Char))
    (responses : Nat → Option (List Char)) (envs : Nat → List Char → ExecOutcome)
    (maxIter : Nat) :
    ((run_main plat tool responses envs maxIter gl).1.actions.all actionOk)
      = true :=
  run_from_preserves_actionOk plat tool responses envs maxIter 1
    (initSession gl) rfl

/-! ## C9: bounded iteration and the soft stop -/

theorem run_from_exhausts
    (plat : List Char) (tool : Option (List Char))
    (responses : Nat → Option (List Char)) (envs : Nat → List Char → ExecOutcome)
    (h : ∀ j : Nat, ∃ r, responses j = some r ∧
      goalSignaled (extract_blocks r).obs = false ∧
      (validate_commands (extract_blocks r).commands plat tool).1 = true) :
    ∀ (rem it : Nat) (s : Session),
    (run_from plat tool responses envs rem it s).2 = .maxIterationsReached ∧
    (run_from plat tool responses envs rem it s).1.actions.length
      = s.actions.length + rem ∧
    (run_from plat tool responses envs rem it s).1.iterations
      = (if rem = 0 then s.iterations else it + rem - 1) := by
  intro rem
  induction rem with
  | zero => intro it s; exact ⟨rfl, by simp [run_from], by simp [run_from]⟩
  | succ n ih =>
    intro it s
    obtain ⟨r, hr, hg, hv⟩ := h it
    simp only [run_from, hr]
    rw [run_iteration_normal hg hv]
    obtain ⟨ih1, ih2, ih3⟩ := ih (it + 1) (add_action s it (extract_blocks r).obs
      (extract_blocks r).think (extract_blocks r).commands
      (execute_commands (envs it) (extract_blocks r).commands))
    refine ⟨ih1, ?_, ?_⟩
    · rw [ih2]
      simp [add_action]
      omega
    · rw [ih3]
      cases n with
      | zero => simp [add_action]
      | succ m => simp [add_action]; omega

/-- Claim C9 (confirmed): with `max_iterations = N ≥ 1`, a backend that
never signals goal completion, and batches that always validate, the loop
performs exactly N iterations (N appended actions, iteration counter N) and
terminates in the max-iterations state, a soft stop with exit code 0. -/
theorem c9_max_iterations_soft_stop
    (plat gl : List Char) (tool : Option (List Char))
    (responses : Nat → Option (List Char)) (envs : Nat → List Char → ExecOutcome)
    (N : Nat) (hN : 1 ≤ N)
    (h : ∀ j : Nat, ∃ r, responses j = some r ∧
      goalSignaled (extract_blocks r).obs = false ∧
      (validate_commands (extract_blocks r).commands plat tool).1 = true) :
    (run_main plat tool responses envs N gl).2 = .maxIterationsReached ∧
    exit_code (run_main plat tool responses envs N gl).2 = 0 ∧
    (run_main plat tool responses envs N gl).1.actions.length = N ∧
    (run_main plat tool responses envs N gl).1.iterations = N := by
  have hmain : run_main plat tool responses envs N gl
      = run_from plat tool responses envs N 1 (initSession gl) := rfl
  obtain ⟨h1, h2, h3⟩ := run_from_exhausts plat tool responses envs h N 1
    (initSession gl)
  rw [hmain]
  have hne : N ≠ 0 := by omega
  refine ⟨h1, by rw [h1]; rfl, ?_, ?_⟩
  · rw [h2]
    simp [initSession]
  · rw [h3, if_neg hne]
    omega

/-- Witness for C9: two iterations with a constant, valid, non-goal
response reach the soft stop with two recorded actions. -/
theorem c9_max_iterations_soft_stop_witness :
    (run_main platLinux none (fun _ => some okResp) (fun _ => envOK) 2
      "g".toList).2 = .maxIterationsReached ∧
    (run_main platLinux none (fun _ => some okResp) (fun _ => envOK) 2
      "g".toList).1.actions.length = 2 := by
  have h := c9_max_iterations_soft_stop platLinux "g".toList none
    (fun _ => some okResp) (fun _ => envOK) 2 (by decide)
    (fun j => ⟨okResp, rfl, by decide, by decide⟩)
  exact ⟨h.1, h.2.2.1⟩

end AgentKVM
